import Mathlib

/-!
The frame loop of camera_canny around the Canny edge pipeline.

A shallow embedding of `main` of `src/camera_canny.cpp`.

The program talks to collaborators that are not part of the source file: the
C library (`atof`, the clocks), the OpenCV video source, display and colour
conversion, and `canny` / `write_pgm_image` of `canny_util.h`.  Every value a
collaborator hands back to `main` is taken from a `World`, an oracle indexed by
the number of calls made so far, so that a theorem quantified over `World`
holds for every behaviour of the collaborators.  Every call `main` makes is
appended to a chronological `trace`.

* `float` values (`sigma`, `tlow`, `thigh`) are elements of an arbitrary type
  `F`: `main` only moves them from `atof` to `canny`.
* clock readings are integer ticks; the floating-point quotients of the
  statistics block are not evaluated, the `statistics` event carries the
  operands (`frame_count` is the divisor of the average time per frame).
* `frame_count` is an `int` that never exceeds `MAX_FRAMES`; it is a `Nat`.
* the three loops of `main` may run forever; each takes a `fuel` bounding the
  number of times its condition is evaluated and reports whether it finished.
  A loop that runs out of fuel returns the state at the head of the iteration
  it could not start.
-/

namespace CameraCanny

/-- Camera resolution settings, `#define WIDTH 640`. -/
def WIDTH : Nat := 640

/-- Camera resolution settings, `#define HEIGHT 480`. -/
def HEIGHT : Nat := 480

/-- Number of frames to capture, `#define MAX_FRAMES 150`. -/
def MAX_FRAMES : Nat := 150

/-- An OpenCV matrix header: its dimensions and its pixel data. -/
structure Mat where
  rows : Nat
  cols : Nat
  data : List Nat
  deriving DecidableEq

/-- The test `Mat::empty()`: no data or no element. -/
def Mat.empty (m : Mat) : Bool :=
  m.data.isEmpty || m.rows * m.cols == 0

/-- Calls made by `main`, in the order of the source. -/
inductive Event (F : Type) where
  /-- The usage text on stderr (lines 39-43), with `argv[0]`. -/
  | usage (prog : String)
  /-- Construction of `VideoCapture cap(pipeline, CAP_GSTREAMER)` (line 61). -/
  | openCapture (pipeline : String)
  /-- The message of line 63. -/
  | openError
  /-- A fixed informational line on stdout (lines 72, 148-151). -/
  | info (msg : String)
  /-- A frame read by `cap >> frame` (lines 74 and 87). -/
  | capture (frame : Mat)
  /-- Display of a captured frame, `imshow(win, frame)` (line 76). -/
  | imshow (win : String) (frame : Mat)
  /-- A call `waitKey(delay)` and the key it returned. -/
  | waitKey (delay : Nat) (key : Int)
  /-- The message of line 89. -/
  | captureError
  /-- The message of line 98, printed when `VERBOSE` is set. -/
  | verbose (n : Nat) (total : Nat)
  /-- The call `canny(image, rows, cols, sigma, tlow, thigh, &edge, fname)`
  (line 100) and the edge buffer it allocated. -/
  | canny (image : List Nat) (rows cols : Nat) (sigma tlow thigh : F)
      (fname : Option String) (edge : Nat)
  /-- The call `write_pgm_image(outfilename, edge, rows, cols, NULL, maxval)`
  (line 104) and the value it returned. -/
  | write_pgm_image (outfilename : String) (edge : Nat) (rows cols : Nat)
      (maxval : Nat) (ret : Int)
  /-- The message of line 105. -/
  | writeError (n : Nat)
  /-- Display of the edge buffer wrapped in a `rows x cols` header
  (lines 110-111). -/
  | imshowEdge (win : String) (rows cols : Nat) (edge : Nat)
  /-- The progress line of line 120. -/
  | progress (n : Nat) (total : Nat)
  /-- The call `free(edge)` (line 125). -/
  | free (edge : Nat)
  /-- The statistics block (lines 131-145): the frame count, the total wall
  time, the CPU time and the recorded frame times. -/
  | statistics (frame_count : Nat) (total_duration : Int) (cpu_time : Int)
      (frame_times : List Int)
  /-- The call `cap.release()` (line 155). -/
  | release
  /-- The call `destroyAllWindows()` (line 156). -/
  | destroyAllWindows
  deriving DecidableEq

/-- Behaviour of the collaborators of `main`. -/
structure World (F : Type) where
  /-- The C library function `atof`, followed by the conversion to `float`. -/
  atof : String → F
  /-- Value of the macro `VERBOSE` of `canny_util.h`. -/
  VERBOSE : Bool
  /-- Result of `cap.isOpened()`. -/
  isOpened : Bool
  /-- Frame delivered by the `n`-th `cap >> frame` (counted from 0). -/
  capture : Nat → Mat
  /-- The conversion `cvtColor(frame, grayframe, COLOR_BGR2GRAY)`. -/
  cvtColor : Mat → Mat
  /-- Key returned by the `n`-th call of `waitKey`. -/
  waitKey : Nat → Int
  /-- Value returned by the `n`-th call of `write_pgm_image`. -/
  write_pgm_image : Nat → Int
  /-- Reading of the `n`-th call of `high_resolution_clock::now()`. -/
  now : Nat → Int
  /-- Reading of `clock()`. -/
  clock : Int

/-- Variables of `main` that live across loop iterations, the number of calls
made to each collaborator, the edge buffers allocated by `canny` and not yet
passed to `free`, and the calls made so far. -/
structure State (F : Type) where
  /-- The pointer `edge`; `none` while it is uninitialised. -/
  edge : Option Nat
  frame_times : List Int
  frame_count : Nat
  /-- Number of `cap >> frame` performed. -/
  captures : Nat
  /-- Number of `waitKey` calls performed. -/
  keys : Nat
  /-- Number of `write_pgm_image` calls performed. -/
  writes : Nat
  /-- Number of `canny` calls performed; the next buffer `canny` allocates. -/
  allocs : Nat
  /-- Number of `high_resolution_clock::now()` calls performed. -/
  clocks : Nat
  /-- Edge buffers allocated and not yet freed. -/
  live : List Nat
  trace : List (Event F)

/-- Append one call to the trace. -/
def State.emit {F : Type} (s : State F) (e : Event F) : State F :=
  { s with trace := s.trace ++ [e] }

/-- The conversion `%03d` of `sprintf` on a non-negative `int`: its decimal
digits, padded with zeros on the left to at least three characters. -/
def fmt03d (n : Nat) : String :=
  String.mk (List.replicate (3 - (Nat.repr n).length) '0') ++ Nat.repr n

/-- The call `sprintf(outfilename, "frame%03d.pgm", frame_count + 1)`
(line 103). -/
def sprintf_outfilename (frame_count : Nat) : String :=
  "frame" ++ fmt03d (frame_count + 1) ++ ".pgm"

/-- The parameters read from the command line (lines 47-52). -/
structure Params (F : Type) where
  sigma : F
  tlow : F
  thigh : F
  dirfilename : Option String

/-- Lines 47-52: `atof` on `argv[1..3]`, and `dirfilename` is `"dummy"` when
`argc == 5` and `NULL` otherwise. -/
def parseParams {F : Type} (w : World F) (argv : List String) : Params F :=
  { sigma := w.atof (argv.getD 1 "")
    tlow := w.atof (argv.getD 2 "")
    thigh := w.atof (argv.getD 3 "")
    dirfilename := if argv.length = 5 then some "dummy" else none }

/-- How one pass through the body of the processing loop ends. -/
inductive Ctl where
  /-- The statement `break` of line 90. -/
  | brk
  /-- The statement `continue` of line 106. -/
  | cont
  /-- The end of the body, line 126. -/
  | next
  deriving DecidableEq

/-- The GStreamer pipeline of lines 55-59. -/
def pipeline : String :=
  "libcamerasrc ! " ++
  "video/x-raw,format=NV12,width=640,height=480,framerate=30/1 ! " ++
  "videoconvert ! " ++
  "appsink drop=true"

/-- State of `main` on entry: nothing called, nothing allocated. -/
def initState (F : Type) : State F :=
  { edge := none, frame_times := [], frame_count := 0, captures := 0, keys := 0,
    writes := 0, allocs := 0, clocks := 0, live := [], trace := [] }

/-- The preview loop, lines 73-78. Returns `true` when the loop was left. -/
def previewLoop {F : Type} (w : World F) : Nat → State F → Bool × State F
  | 0, s => (false, s)
  | fuel + 1, s =>
    let frame := w.capture s.captures
    let s1 := { s with captures := s.captures + 1 }.emit (.capture frame)
    if frame.empty then (true, s1)
    else
      let s2 := s1.emit (.imshow "[RAW] Preview" frame)
      let key := w.waitKey s2.keys
      let s3 := { s2 with keys := s2.keys + 1 }.emit (.waitKey 10 key)
      if key = 27 then (true, s3) else previewLoop w fuel s3

/-- One pass through the body of the processing loop, lines 84-125. -/
def loopBody {F : Type} (w : World F) (p : Params F) (s : State F) : Ctl × State F :=
  let frame_start := w.now s.clocks
  let s1 := { s with clocks := s.clocks + 1 }
  let frame := w.capture s1.captures
  let s2 := { s1 with captures := s1.captures + 1 }.emit (.capture frame)
  if frame.empty then
    (.brk, s2.emit .captureError)
  else
    let grayframe := w.cvtColor frame
    let image := grayframe.data
    let s3 := if w.VERBOSE then s2.emit (.verbose (s2.frame_count + 1) MAX_FRAMES) else s2
    let edge := s3.allocs
    let s4 := { s3 with allocs := s3.allocs + 1, edge := some edge, live := edge :: s3.live }.emit
      (.canny image HEIGHT WIDTH p.sigma p.tlow p.thigh p.dirfilename edge)
    let outfilename := sprintf_outfilename s4.frame_count
    let ret := w.write_pgm_image s4.writes
    let s5 := { s4 with writes := s4.writes + 1 }.emit
      (.write_pgm_image outfilename edge HEIGHT WIDTH 255 ret)
    if ret = 0 then
      (.cont, s5.emit (.writeError (s5.frame_count + 1)))
    else
      let s6 := s5.emit (.imshowEdge "[EDGE] Processed Frame" HEIGHT WIDTH edge)
      let key := w.waitKey s6.keys
      let s7 := { s6 with keys := s6.keys + 1 }.emit (.waitKey 1 key)
      let frame_end := w.now s7.clocks
      let s8 := { s7 with clocks := s7.clocks + 1,
                          frame_times := s7.frame_times ++ [frame_end - frame_start] }
      let s9 := s8.emit (.progress (s8.frame_count + 1) MAX_FRAMES)
      let s10 := { s9 with frame_count := s9.frame_count + 1 }
      (.next, { s10 with live := s10.live.erase edge }.emit (.free edge))

/-- The processing loop, lines 83-126. Returns `true` when the loop was left. -/
def processLoop {F : Type} (w : World F) (p : Params F) : Nat → State F → Bool × State F
  | 0, s => (false, s)
  | fuel + 1, s =>
    if s.frame_count < MAX_FRAMES then
      match loopBody w p s with
      | (.brk, s1) => (true, s1)
      | (_, s1) => processLoop w p fuel s1
    else (true, s)

/-- The statistics block and the encoding instructions, lines 128-151;
`total_start` is the clock reading of line 81. -/
def report {F : Type} (w : World F) (total_start : Int) (s : State F) : State F :=
  let total_end := w.now s.clocks
  let s1 := { s with clocks := s.clocks + 1 }
  let total_duration := total_end - total_start
  let cpu_time := w.clock
  let s2 := s1.emit (.statistics s1.frame_count total_duration cpu_time s1.frame_times)
  let s3 := s2.emit (.info "To encode processed frames into video, run:")
  let s4 := s3.emit (.info "ffmpeg -i frame%03d.pgm -pix_fmt yuvj420p frame_vid.h264")
  s4.emit (.info "[INFO] Press ESC to exit...")

/-- The loop `while(waitKey(10) != 27);` of line 152. Returns `true` when the
loop was left. -/
def waitEsc {F : Type} (w : World F) : Nat → State F → Bool × State F
  | 0, s => (false, s)
  | fuel + 1, s =>
    let key := w.waitKey s.keys
    let s1 := { s with keys := s.keys + 1 }.emit (.waitKey 10 key)
    if key ≠ 27 then waitEsc w fuel s1 else (true, s1)

/-- Result of running `main`: its exit status, `none` when a loop was still
running when the fuel ran out, and the state reached. -/
structure Outcome (F : Type) where
  status : Option Int
  state : State F

/-- The part of `main` after the processing loop, lines 128-158. -/
def epilogue {F : Type} (w : World F) (total_start : Int) (fuel : Nat) (s : State F) :
    Outcome F :=
  let s1 := report w total_start s
  match waitEsc w fuel s1 with
  | (false, s2) => { status := none, state := s2 }
  | (true, s2) => { status := some 0, state := (s2.emit .release).emit .destroyAllWindows }

/-- Bounds on the number of times each of the three loops of `main` evaluates
its condition. -/
structure Fuel where
  preview : Nat
  process : Nat
  wait : Nat

/-- The function `main`, lines 25-159, on the command line `argv`
(`argc = argv.length`). -/
def main {F : Type} (w : World F) (argv : List String) (fuel : Fuel) : Outcome F :=
  if argv.length < 4 then
    { status := some 1, state := (initState F).emit (.usage (argv.getD 0 "")) }
  else
    let p := parseParams w argv
    let s0 := (initState F).emit (.openCapture pipeline)
    if !w.isOpened then
      { status := some (-1), state := s0.emit .openError }
    else
      let s1 := s0.emit (.info "[INFO] Press ESC to start Canny edge detection...")
      match previewLoop w fuel.preview s1 with
      | (false, s2) => { status := none, state := s2 }
      | (true, s2) =>
        let total_start := w.now s2.clocks
        let s3 := { s2 with clocks := s2.clocks + 1 }
        match processLoop w p fuel.process s3 with
        | (false, s4) => { status := none, state := s4 }
        | (true, s4) => epilogue w total_start fuel.wait s4

/-! ## Observations on a trace -/

/-- The event is a call of `canny`. -/
def Event.isCanny {F : Type} : Event F → Bool
  | .canny .. => true
  | _ => false

/-- The event is a `cap >> frame`. -/
def Event.isCapture {F : Type} : Event F → Bool
  | .capture _ => true
  | _ => false

/-- The event is the usage text. -/
def Event.isUsage {F : Type} : Event F → Bool
  | .usage _ => true
  | _ => false

/-- Number of `canny` invocations in a trace. -/
def cannyCalls {F : Type} (t : List (Event F)) : Nat :=
  (t.filter Event.isCanny).length

/-- Number of `cap >> frame` in a trace. -/
def captureCount {F : Type} (t : List (Event F)) : Nat :=
  (t.filter Event.isCapture).length

/-- The buffer a `canny` call allocated. -/
def Event.allocated? {F : Type} : Event F → Option Nat
  | .canny _ _ _ _ _ _ _ edge => some edge
  | _ => none

/-- The buffer passed to `free`. -/
def Event.freed? {F : Type} : Event F → Option Nat
  | .free edge => some edge
  | _ => none

/-- The edge buffers returned by `canny`, in the order allocated. -/
def allocated {F : Type} (t : List (Event F)) : List Nat :=
  t.filterMap Event.allocated?

/-- The edge buffers passed to `free`, in the order freed. -/
def freed {F : Type} (t : List (Event F)) : List Nat :=
  t.filterMap Event.freed?

/-- The file name of a successful `write_pgm_image` call. -/
def Event.written? {F : Type} : Event F → Option String
  | .write_pgm_image name _ _ _ _ ret => if ret = 0 then none else some name
  | _ => none

/-- File names of the successfully written edge maps, in the order written. -/
def writtenNames {F : Type} (t : List (Event F)) : List String :=
  t.filterMap Event.written?

/-- The frame count and the frame times of a statistics block. -/
def Event.reported? {F : Type} : Event F → Option (Nat × List Int)
  | .statistics frame_count _ _ frame_times => some (frame_count, frame_times)
  | _ => none

/-- The statistics blocks printed in a trace: the reported total of frames
processed, which is the divisor of the average time per frame, and the frame
times that are averaged. -/
def reported {F : Type} (t : List (Event F)) : List (Nat × List Int) :=
  t.filterMap Event.reported?

/-- Three decimal digits of `k`, most significant first. -/
def threeDigits (k : Nat) : String :=
  String.mk [Nat.digitChar (k / 100 % 10), Nat.digitChar (k / 10 % 10), Nat.digitChar (k % 10)]

/-- The name the specification gives to the `k`-th written edge map: "frame",
then `k` zero-padded to three digits, then ".pgm". -/
def frameName (k : Nat) : String :=
  "frame" ++ threeDigits k ++ ".pgm"

/-! ## What every run preserves -/

/-- The line printed by line 98 when `VERBOSE` is set. -/
def verboseLine {F : Type} (w : World F) (s : State F) : List (Event F) :=
  if w.VERBOSE then [.verbose (s.frame_count + 1) MAX_FRAMES] else []

/-- Events that invoke no `canny`, write no file and print neither the usage
text nor the statistics. -/
def Event.isPassive {F : Type} : Event F → Bool
  | .canny .. => false
  | .write_pgm_image .. => false
  | .usage _ => false
  | .statistics .. => false
  | _ => true

/-- Events of the part of `main` after the statistics block. -/
def Event.isIdle {F : Type} : Event F → Bool
  | .info _ => true
  | .waitKey _ _ => true
  | .release => true
  | .destroyAllWindows => true
  | _ => false

/-- A `canny` call is made with the declared dimensions and the parameters `p`,
and the event is not the usage text. -/
def Event.ok {F : Type} (p : Params F) : Event F → Prop
  | .canny _ rows cols sigma tlow thigh fname _ =>
    rows = HEIGHT ∧ cols = WIDTH ∧ sigma = p.sigma ∧ tlow = p.tlow ∧ thigh = p.thigh ∧
      fname = p.dirfilename
  | .usage _ => False
  | _ => True

/-- Facts that hold of the state of `main` from the construction of the video
source on. -/
structure Core {F : Type} (p : Params F) (s : State F) : Prop where
  times : s.frame_times.length = s.frame_count
  names : writtenNames s.trace = (List.range s.frame_count).map sprintf_outfilename
  bound : s.frame_count ≤ MAX_FRAMES
  events : ∀ e ∈ s.trace, e.ok p
  opened : s.trace.head? = some (.openCapture pipeline)

/-- The core facts, and every statistics block printed so far reports the
current frame count and frame times. -/
def Post {F : Type} (p : Params F) (s : State F) : Prop :=
  Core p s ∧ ∀ r ∈ reported s.trace, r = (s.frame_count, s.frame_times)


/-! ## Sample runs -/

/-- A 2 x 2 frame. -/
def tinyFrame : Mat := { rows := 2, cols := 2, data := [10, 20, 30, 40] }

/-- The empty frame, which signals the end of the stream. -/
def noFrame : Mat := { rows := 0, cols := 0, data := [] }

/-- The value `atof` gives on the strings used in the sample runs. -/
def sampleAtof (s : String) : ℚ :=
  if s = "-1" then -1 else if s = "2" then 2 else 1

/-- A run in which the source delivers one frame to the preview, which the
user ends with ESC, then one frame to the processing loop, then nothing; the
file writer succeeds. -/
def oneFrameWorld : World ℚ :=
  { atof := sampleAtof
    VERBOSE := false
    isOpened := true
    capture := fun n => if n < 2 then tinyFrame else noFrame
    cvtColor := fun m => m
    waitKey := fun _ => 27
    write_pgm_image := fun _ => 1
    now := fun n => 10 * n
    clock := 7 }

/-- A run in which the source always delivers a frame and the file writer
always fails. -/
def stuckWorld : World ℚ :=
  { oneFrameWorld with capture := fun _ => tinyFrame, write_pgm_image := fun _ => 0 }

/-- A run in which the source delivers one frame to the preview and two to the
processing loop, and the file writer fails. -/
def leakWorld : World ℚ :=
  { oneFrameWorld with
    capture := fun n => if n < 3 then tinyFrame else noFrame
    write_pgm_image := fun _ => 0 }

/-- A run in which the source delivers one frame to the preview and none to
the processing loop. -/
def endedWorld : World ℚ :=
  { oneFrameWorld with capture := fun n => if n < 1 then tinyFrame else noFrame }

/-- State of the run of `endedWorld` when the processing loop is entered. -/
def endedStart : State ℚ :=
  { initState ℚ with
    captures := 1, keys := 1, clocks := 1
    trace := [.openCapture pipeline,
      .info "[INFO] Press ESC to start Canny edge detection...",
      .capture tinyFrame, .imshow "[RAW] Preview" tinyFrame, .waitKey 10 27] }

/-- A command line whose three parameters are all invalid: `sigma = -1`,
`tlow = 2` and `thigh = 1`. -/
def badArgv : List String := ["camera_canny", "-1", "2", "1"]

/-- A command line with five parameters: the fourth, `writedirim`, is there and
is followed by one more. -/
def longArgv : List String := ["camera_canny", "2", "1", "1", "writedirim", "more"]

/-- A run in which the source delivers one frame to the preview and four to the
processing loop, and the second write fails. -/
def mixedWorld : World ℚ :=
  { oneFrameWorld with
    capture := fun n => if n < 5 then tinyFrame else noFrame
    write_pgm_image := fun n => if n = 1 then 0 else 1 }

/-- A run in which the source always delivers a frame and the file writer
always succeeds. -/
def steadyWorld : World ℚ :=
  { oneFrameWorld with capture := fun _ => tinyFrame }

/-- One round for the preview, enough rounds for the processing loop to count
`MAX_FRAMES` frames, one round for the final wait. -/
def fuelFull : Fuel := { preview := 1, process := 151, wait := 1 }

/-- Five rounds for each loop. -/
def fuel5 : Fuel := { preview := 5, process := 5, wait := 5 }

/-- Parameters of the sample runs. -/
def sampleParams : Params ℚ :=
  { sigma := 2, tlow := 1, thigh := 1, dirfilename := none }

/-- The number a frame file name carries: its characters 5 to 7 read as
decimal digits. -/
def frameIndex (name : String) : Nat :=
  ((name.toList.drop 5).take 3).foldl (fun acc c => 10 * acc + (c.toNat - 48)) 0

/-! ## Helper lemmas -/

theorem writtenNames_append {F : Type} (a b : List (Event F)) :
    writtenNames (a ++ b) = writtenNames a ++ writtenNames b := by
  simp [writtenNames]

theorem reported_append {F : Type} (a b : List (Event F)) :
    reported (a ++ b) = reported a ++ reported b := by
  simp [reported]

theorem cannyCalls_append {F : Type} (a b : List (Event F)) :
    cannyCalls (a ++ b) = cannyCalls a + cannyCalls b := by
  simp [cannyCalls]

theorem captureCount_append {F : Type} (a b : List (Event F)) :
    captureCount (a ++ b) = captureCount a + captureCount b := by
  simp [captureCount]

theorem passive_ok {F : Type} (p : Params F) (e : Event F) (h : e.isPassive = true) :
    e.ok p := by
  cases e <;> simp_all [Event.isPassive, Event.ok]

theorem passive_written {F : Type} (ext : List (Event F))
    (h : ∀ e ∈ ext, e.isPassive = true) : writtenNames ext = [] := by
  simp only [writtenNames, List.filterMap_eq_nil_iff]
  intro e he
  have := h e he
  cases e <;> simp_all [Event.isPassive, Event.written?]

theorem passive_reported {F : Type} (ext : List (Event F))
    (h : ∀ e ∈ ext, e.isPassive = true) : reported ext = [] := by
  simp only [reported, List.filterMap_eq_nil_iff]
  intro e he
  have := h e he
  cases e <;> simp_all [Event.isPassive, Event.reported?]

theorem passive_canny {F : Type} (ext : List (Event F))
    (h : ∀ e ∈ ext, e.isPassive = true) : cannyCalls ext = 0 := by
  simp only [cannyCalls, List.length_eq_zero, List.filter_eq_nil_iff]
  intro e he
  have := h e he
  cases e <;> simp_all [Event.isPassive, Event.isCanny]

/-- A state that differs by passive events only keeps the core facts. -/
theorem Core.extend {F : Type} {p : Params F} {s t : State F} (ext : List (Event F))
    (hs : Core p s) (ht : t.frame_times = s.frame_times) (hc : t.frame_count = s.frame_count)
    (htr : t.trace = s.trace ++ ext) (hp : ∀ e ∈ ext, e.isPassive = true) : Core p t := by
  refine ⟨by rw [ht, hc]; exact hs.times, ?_, by rw [hc]; exact hs.bound, ?_, ?_⟩
  · rw [htr, writtenNames_append, passive_written ext hp, hc, hs.names]; simp
  · intro e he
    rw [htr, List.mem_append] at he
    rcases he with he | he
    · exact hs.events e he
    · exact passive_ok p e (hp e he)
  · rw [htr]
    have h := hs.opened
    cases hst : s.trace with
    | nil => simp [hst] at h
    | cons a l => simpa [hst] using h

/-- What a run of the preview loop changes. -/
theorem previewLoop_spec {F : Type} (w : World F) (fuel : Nat) (s : State F) :
    ∃ ext, (previewLoop w fuel s).2.trace = s.trace ++ ext ∧
      (∀ e ∈ ext, e.isPassive = true) ∧
      (previewLoop w fuel s).2.frame_times = s.frame_times ∧
      (previewLoop w fuel s).2.frame_count = s.frame_count ∧
      (previewLoop w fuel s).2.live = s.live := by
  induction fuel generalizing s with
  | zero => exact ⟨[], by simp [previewLoop]⟩
  | succ n ih =>
    unfold previewLoop
    simp only
    split
    · exact ⟨[.capture (w.capture s.captures)], by simp [State.emit, Event.isPassive]⟩
    · split
      · exact ⟨[.capture (w.capture s.captures), .imshow "[RAW] Preview" (w.capture s.captures),
          .waitKey 10 (w.waitKey s.keys)], by simp [State.emit, Event.isPassive]⟩
      · obtain ⟨ext, h1, h2, h3, h4, h5⟩ := ih
          ({ ({ s with captures := s.captures + 1 }.emit (.capture (w.capture s.captures))).emit
            (.imshow "[RAW] Preview" (w.capture s.captures)) with keys := s.keys + 1 }.emit
            (.waitKey 10 (w.waitKey s.keys)))
        refine ⟨[.capture (w.capture s.captures), .imshow "[RAW] Preview" (w.capture s.captures),
          .waitKey 10 (w.waitKey s.keys)] ++ ext, ?_, ?_, ?_, ?_, ?_⟩
        · simpa [State.emit] using h1
        · intro e he
          simp only [List.mem_append, List.mem_cons, List.mem_singleton, List.not_mem_nil,
            or_false] at he
          rcases he with (rfl | rfl | rfl) | he
          · simp [Event.isPassive]
          · simp [Event.isPassive]
          · simp [Event.isPassive]
          · exact h2 e he
        · simpa [State.emit] using h3
        · simpa [State.emit] using h4
        · simpa [State.emit] using h5

/-- What a run of the final wait loop changes: it only calls `waitKey(10)`. -/
theorem waitEsc_spec {F : Type} (w : World F) (fuel : Nat) (s : State F) :
    ∃ ext, (waitEsc w fuel s).2.trace = s.trace ++ ext ∧
      (∀ e ∈ ext, ∃ key, e = Event.waitKey 10 key) ∧
      (waitEsc w fuel s).2.frame_times = s.frame_times ∧
      (waitEsc w fuel s).2.frame_count = s.frame_count ∧
      (waitEsc w fuel s).2.live = s.live := by
  induction fuel generalizing s with
  | zero => exact ⟨[], by simp [waitEsc]⟩
  | succ n ih =>
    unfold waitEsc
    simp only
    split
    · obtain ⟨ext, h1, h2, h3, h4, h5⟩ := ih
        ({ s with keys := s.keys + 1 }.emit (.waitKey 10 (w.waitKey s.keys)))
      refine ⟨[.waitKey 10 (w.waitKey s.keys)] ++ ext, ?_, ?_, ?_, ?_, ?_⟩
      · simpa [State.emit] using h1
      · intro e he
        simp only [List.mem_append, List.mem_singleton] at he
        rcases he with rfl | he
        · exact ⟨_, rfl⟩
        · exact h2 e he
      · simpa [State.emit] using h3
      · simpa [State.emit] using h4
      · simpa [State.emit] using h5
    · exact ⟨[.waitKey 10 (w.waitKey s.keys)], by simp [State.emit]⟩

/-- The loop body when the captured frame is empty: lines 84-91. -/
theorem loopBody_empty {F : Type} (w : World F) (p : Params F) (s : State F)
    (h : (w.capture s.captures).empty = true) :
    loopBody w p s = (.brk, { s with
      clocks := s.clocks + 1, captures := s.captures + 1,
      trace := s.trace ++ [.capture (w.capture s.captures), .captureError] }) := by
  simp [loopBody, h, State.emit]

/-- The loop body when the frame is not empty and the file writer fails:
lines 84-106. -/
theorem loopBody_fail {F : Type} (w : World F) (p : Params F) (s : State F)
    (h : (w.capture s.captures).empty = false) (hw : w.write_pgm_image s.writes = 0) :
    loopBody w p s = (.cont, { s with
      clocks := s.clocks + 1, captures := s.captures + 1, allocs := s.allocs + 1,
      writes := s.writes + 1, edge := some s.allocs, live := s.allocs :: s.live,
      trace := s.trace ++ [.capture (w.capture s.captures)] ++ verboseLine w s ++
        [.canny (w.cvtColor (w.capture s.captures)).data HEIGHT WIDTH p.sigma p.tlow p.thigh
            p.dirfilename s.allocs,
          .write_pgm_image (sprintf_outfilename s.frame_count) s.allocs HEIGHT WIDTH 255 0,
          .writeError (s.frame_count + 1)] }) := by
  cases hv : w.VERBOSE <;> simp [loopBody, h, hw, hv, State.emit, verboseLine]

/-- The loop body when the frame is not empty and the file is written:
lines 84-125. -/
theorem loopBody_ok {F : Type} (w : World F) (p : Params F) (s : State F)
    (h : (w.capture s.captures).empty = false) (hw : w.write_pgm_image s.writes ≠ 0) :
    loopBody w p s = (.next, { s with
      clocks := s.clocks + 2, captures := s.captures + 1, allocs := s.allocs + 1,
      writes := s.writes + 1, keys := s.keys + 1, edge := some s.allocs,
      live := s.live,
      frame_times := s.frame_times ++ [w.now (s.clocks + 1) - w.now s.clocks],
      frame_count := s.frame_count + 1,
      trace := s.trace ++ [.capture (w.capture s.captures)] ++ verboseLine w s ++
        [.canny (w.cvtColor (w.capture s.captures)).data HEIGHT WIDTH p.sigma p.tlow p.thigh
            p.dirfilename s.allocs,
          .write_pgm_image (sprintf_outfilename s.frame_count) s.allocs HEIGHT WIDTH 255
            (w.write_pgm_image s.writes),
          .imshowEdge "[EDGE] Processed Frame" HEIGHT WIDTH s.allocs,
          .waitKey 1 (w.waitKey s.keys),
          .progress (s.frame_count + 1) MAX_FRAMES,
          .free s.allocs] }) := by
  cases hv : w.VERBOSE <;> simp [loopBody, h, hw, hv, State.emit, verboseLine]

theorem verboseLine_passive {F : Type} (w : World F) (s : State F) :
    ∀ e ∈ verboseLine w s, e.isPassive = true := by
  intro e he
  unfold verboseLine at he
  split at he
  · simp only [List.mem_singleton] at he
    subst he
    rfl
  · simp at he

theorem head_append_opened {F : Type} (t ext : List (Event F))
    (h : t.head? = some (.openCapture pipeline)) :
    (t ++ ext).head? = some (.openCapture pipeline) := by
  cases t with
  | nil => simp at h
  | cons a l => simpa using h

/-- One pass through the loop body keeps the core facts and prints no
statistics. -/
theorem loopBody_core {F : Type} (w : World F) (p : Params F) (s : State F)
    (hs : Core p s) (hlt : s.frame_count < MAX_FRAMES) :
    Core p (loopBody w p s).2 ∧ reported (loopBody w p s).2.trace = reported s.trace := by
  obtain ⟨h1, h2, h3, h4, h5⟩ := hs
  have hv := verboseLine_passive w s
  have hvw := passive_written _ hv
  have hvr := passive_reported _ hv
  have hvo : ∀ e ∈ verboseLine w s, e.ok p := fun e he => passive_ok p e (hv e he)
  cases he : (w.capture s.captures).empty with
  | true =>
    rw [loopBody_empty w p s he]
    refine ⟨⟨h1, ?_, h3, ?_, head_append_opened _ _ h5⟩, ?_⟩
    · simpa [writtenNames_append, writtenNames, Event.written?] using h2
    · simp only [List.mem_append, List.mem_cons, List.mem_singleton, List.not_mem_nil,
        or_false, or_imp, forall_and, forall_eq, Event.ok, and_true]
      exact h4
    · simp [reported_append, reported, Event.reported?]
  | false =>
    by_cases hw : w.write_pgm_image s.writes = 0
    · rw [loopBody_fail w p s he hw]
      refine ⟨⟨h1, ?_, h3, ?_, ?_⟩, ?_⟩
      · simp only [writtenNames_append, hvw]
        simpa [writtenNames, Event.written?] using h2
      · simp only [List.mem_append, List.mem_cons, List.mem_singleton, List.not_mem_nil,
          or_false, or_imp, forall_and, forall_eq, Event.ok, and_true]
        exact ⟨h4, hvo⟩
      · simp only [List.append_assoc]
        exact head_append_opened _ _ h5
      · simp only [reported_append, hvr]
        simp [reported, Event.reported?]
    · rw [loopBody_ok w p s he hw]
      refine ⟨⟨by simp [h1], ?_, hlt, ?_, ?_⟩, ?_⟩
      · simp only [writtenNames_append, hvw]
        simp [writtenNames, Event.written?, hw, List.range_succ, ← h2]
      · simp only [List.mem_append, List.mem_cons, List.mem_singleton, List.not_mem_nil,
          or_false, or_imp, forall_and, forall_eq, Event.ok, and_true]
        exact ⟨h4, hvo⟩
      · simp only [List.append_assoc]
        exact head_append_opened _ _ h5
      · simp only [reported_append, hvr]
        simp [reported, Event.reported?]

/-- The processing loop keeps the core facts and prints no statistics, however
long it runs. -/
theorem processLoop_core {F : Type} (w : World F) (p : Params F) (fuel : Nat) (s : State F)
    (hs : Core p s) :
    Core p (processLoop w p fuel s).2 ∧
      reported (processLoop w p fuel s).2.trace = reported s.trace := by
  induction fuel generalizing s with
  | zero => exact ⟨hs, rfl⟩
  | succ n ih =>
    unfold processLoop
    split
    · rename_i hlt
      have hb := loopBody_core w p s hs hlt
      split
      · rename_i s1 heq
        rw [heq] at hb
        exact hb
      · rename_i c s1 hne heq
        rw [heq] at hb
        obtain ⟨h1, h2⟩ := ih s1 hb.1
        exact ⟨h1, h2.trans hb.2⟩
    · exact ⟨hs, rfl⟩

theorem idle_passive {F : Type} (e : Event F) (h : e.isIdle = true) : e.isPassive = true := by
  cases e <;> simp_all [Event.isIdle, Event.isPassive]

theorem idle_capture {F : Type} (ext : List (Event F))
    (h : ∀ e ∈ ext, e.isIdle = true) : captureCount ext = 0 := by
  simp only [captureCount, List.length_eq_zero, List.filter_eq_nil_iff]
  intro e he
  have := h e he
  cases e <;> simp_all [Event.isIdle, Event.isCapture]

/-- What the part of `main` after the processing loop does: it prints one
statistics block, with the frame count and frame times the loop left, and
then only waits for a key and cleans up. -/
theorem epilogue_spec {F : Type} (w : World F) (t : Int) (fuel : Nat) (s : State F) :
    ∃ ext, (epilogue w t fuel s).state.trace =
        s.trace ++ [.statistics s.frame_count (w.now s.clocks - t) w.clock s.frame_times] ++ ext ∧
      (∀ e ∈ ext, e.isIdle = true) ∧
      (epilogue w t fuel s).state.frame_times = s.frame_times ∧
      (epilogue w t fuel s).state.frame_count = s.frame_count ∧
      (epilogue w t fuel s).state.live = s.live := by
  obtain ⟨ext, h1, h2, h3, h4, h5⟩ := waitEsc_spec w fuel (report w t s)
  have hidle : ∀ e ∈ ext, e.isIdle = true := by
    intro e he
    obtain ⟨k, rfl⟩ := h2 e he
    rfl
  unfold epilogue
  simp only
  split
  · rename_i s2 heq
    rw [heq] at h1 h3 h4 h5
    simp only at h1 h3 h4 h5
    refine ⟨[.info "To encode processed frames into video, run:",
      .info "ffmpeg -i frame%03d.pgm -pix_fmt yuvj420p frame_vid.h264",
      .info "[INFO] Press ESC to exit..."] ++ ext, ?_, ?_, ?_, ?_, ?_⟩
    · rw [h1]; simp [report, State.emit]
    · intro e he
      simp only [List.mem_append, List.mem_cons, List.mem_singleton, List.not_mem_nil,
        or_false] at he
      rcases he with (rfl | rfl | rfl) | he
      · rfl
      · rfl
      · rfl
      · exact hidle e he
    · rw [h3]; simp [report, State.emit]
    · rw [h4]; simp [report, State.emit]
    · rw [h5]; simp [report, State.emit]
  · rename_i s2 heq
    rw [heq] at h1 h3 h4 h5
    simp only at h1 h3 h4 h5
    refine ⟨[.info "To encode processed frames into video, run:",
      .info "ffmpeg -i frame%03d.pgm -pix_fmt yuvj420p frame_vid.h264",
      .info "[INFO] Press ESC to exit..."] ++ ext ++ [.release, .destroyAllWindows],
      ?_, ?_, ?_, ?_, ?_⟩
    · simp only [State.emit, h1]; simp [report, State.emit]
    · intro e he
      simp only [List.mem_append, List.mem_cons, List.mem_singleton, List.not_mem_nil,
        or_false] at he
      rcases he with ((rfl | rfl | rfl) | he) | rfl | rfl
      · rfl
      · rfl
      · rfl
      · exact hidle e he
      · rfl
      · rfl
    · simp only [State.emit, h3]; simp [report, State.emit]
    · simp only [State.emit, h4]; simp [report, State.emit]
    · simp only [State.emit, h5]; simp [report, State.emit]

/-- After the processing loop the facts of `Post` hold. -/
theorem epilogue_post {F : Type} (w : World F) (p : Params F) (t : Int) (fuel : Nat)
    (s : State F) (hs : Core p s) (hr : reported s.trace = []) :
    Post p (epilogue w t fuel s).state := by
  obtain ⟨ext, h1, h2, h3, h4, h5⟩ := epilogue_spec w t fuel s
  have hp : ∀ e ∈ ext, e.isPassive = true := fun e he => idle_passive e (h2 e he)
  obtain ⟨c1, c2, c3, c4, c5⟩ := hs
  refine ⟨⟨by rw [h3, h4]; exact c1, ?_, by rw [h4]; exact c3, ?_, ?_⟩, ?_⟩
  · rw [h1, h4, writtenNames_append, writtenNames_append, passive_written ext hp, c2]
    simp [writtenNames, Event.written?]
  · rw [h1]
    simp only [List.mem_append, List.mem_cons, List.mem_singleton, List.not_mem_nil,
      or_false, or_imp, forall_and, forall_eq, Event.ok, and_true]
    exact ⟨c4, fun e he => passive_ok p e (hp e he)⟩
  · rw [h1, List.append_assoc]
    exact head_append_opened _ _ c5
  · rw [h1, h3, h4, reported_append, reported_append, passive_reported ext hp, hr]
    simp [reported, Event.reported?]

/-- The facts of `Post` hold of every state `main` reaches on a command line
with at least three parameters. -/
theorem main_post {F : Type} (w : World F) (argv : List String) (fuel : Fuel)
    (h : 4 ≤ argv.length) : Post (parseParams w argv) (main w argv fuel).state := by
  have hpre : ∀ s : State F, Core (parseParams w argv) s → reported s.trace = [] →
      Post (parseParams w argv) s := by
    intro s hs hr
    exact ⟨hs, by simp [hr]⟩
  have h0 : Core (parseParams w argv) ((initState F).emit (.openCapture pipeline)) :=
    ⟨rfl, rfl, by simp [State.emit, initState], by simp [State.emit, initState, Event.ok], rfl⟩
  unfold main
  rw [if_neg (by omega)]
  simp only
  split
  · exact hpre _ (Core.extend [.openError] h0 rfl rfl rfl (by simp [Event.isPassive])) rfl
  · have h1 : Core (parseParams w argv) (((initState F).emit (.openCapture pipeline)).emit
        (.info "[INFO] Press ESC to start Canny edge detection...")) :=
      Core.extend [.info "[INFO] Press ESC to start Canny edge detection..."] h0 rfl rfl rfl
        (by simp [Event.isPassive])
    obtain ⟨ext, e1, e2, e3, e4, _⟩ := previewLoop_spec w fuel.preview
      (((initState F).emit (.openCapture pipeline)).emit
        (.info "[INFO] Press ESC to start Canny edge detection..."))
    have h2 := Core.extend ext h1 e3 e4 e1 e2
    have r2 : reported (previewLoop w fuel.preview (((initState F).emit (.openCapture pipeline)).emit
        (.info "[INFO] Press ESC to start Canny edge detection..."))).2.trace = [] := by
      rw [e1, reported_append, passive_reported ext e2]
      rfl
    split
    · rename_i s2 heq
      rw [heq] at h2 r2
      exact hpre _ h2 r2
    · rename_i s2 heq
      rw [heq] at h2 r2
      simp only at h2 r2
      have h3 : Core (parseParams w argv) { s2 with clocks := s2.clocks + 1 } :=
        Core.extend [] h2 rfl rfl (by simp) (by simp)
      obtain ⟨h4, r4⟩ := processLoop_core w (parseParams w argv) fuel.process _ h3
      split
      · rename_i s4 heq4
        rw [heq4] at h4 r4
        exact hpre _ h4 (r4.trans r2)
      · rename_i s4 heq4
        rw [heq4] at h4 r4
        exact epilogue_post w _ _ fuel.wait s4 h4 (r4.trans r2)



theorem epilogue_status {F : Type} (w : World F) (t : Int) (fuel : Nat) (s : State F) :
    (epilogue w t fuel s).status ≠ some 1 := by
  unfold epilogue
  simp only
  split <;> simp

theorem main_status {F : Type} (w : World F) (argv : List String) (fuel : Fuel)
    (h : 4 ≤ argv.length) : (main w argv fuel).status ≠ some 1 := by
  unfold main
  rw [if_neg (by omega)]
  simp only
  split
  · simp
  · split
    · simp
    · split
      · simp
      · exact epilogue_status _ _ _ _

/-! ## The claims -/

/-- C6: on a command line with fewer than three parameters (`argc < 4`) `main`
prints the usage text and exits with status 1, and that is all it does: the
video source is not opened, `canny` is not invoked and no file is written.
On a command line with `argc >= 4` it neither exits with status 1 nor prints
the usage text (the trace holds no usage event). -/
theorem usage_exit {F : Type} (w : World F) (argv : List String) (fuel : Fuel) :
    (argv.length < 4 →
      (main w argv fuel).status = some 1 ∧
      (main w argv fuel).state.trace = [.usage (argv.getD 0 "")]) ∧
    (4 ≤ argv.length →
      (main w argv fuel).status ≠ some 1 ∧
      (main w argv fuel).state.trace.filter Event.isUsage = []) := by
  constructor
  · intro h
    simp [main, h, State.emit, initState]
  · intro h
    refine ⟨main_status w argv fuel h, ?_⟩
    rw [List.filter_eq_nil_iff]
    intro e he
    have hok := (main_post w argv fuel h).1.events e he
    cases e <;> first | exact hok.elim | simp [Event.isUsage]

/-- Witness of C6 on a command line with one parameter and on one with three. -/
theorem usage_exit_witness :
    ((main oneFrameWorld ["camera_canny", "2"] fuel5).status = some 1 ∧
      (main oneFrameWorld ["camera_canny", "2"] fuel5).state.trace = [.usage "camera_canny"]) ∧
    ((main oneFrameWorld ["camera_canny", "2", "1", "1"] fuel5).status ≠ some 1 ∧
      (main oneFrameWorld ["camera_canny", "2", "1", "1"] fuel5).state.trace.filter
        Event.isUsage = []) :=
  ⟨(usage_exit oneFrameWorld ["camera_canny", "2"] fuel5).1 (by decide),
   (usage_exit oneFrameWorld ["camera_canny", "2", "1", "1"] fuel5).2 (by decide)⟩

/-- C3: when the capture at the head of an iteration of the processing loop
delivers an empty frame, the loop is left at once: the iteration only records
the capture and prints the error message (no `canny` call, no file written),
the frame count and the frame times are unchanged, and the rest of `main`
captures no further frame. -/
theorem empty_frame_ends_loop {F : Type} (w : World F) (p : Params F) (t : Int)
    (fuel fuel2 : Nat) (s : State F) (hlt : s.frame_count < MAX_FRAMES)
    (he : (w.capture s.captures).empty = true) :
    processLoop w p (fuel + 1) s = (true, { s with
      clocks := s.clocks + 1, captures := s.captures + 1,
      trace := s.trace ++ [.capture (w.capture s.captures), .captureError] }) ∧
    (processLoop w p (fuel + 1) s).2.frame_count = s.frame_count ∧
    (processLoop w p (fuel + 1) s).2.frame_times = s.frame_times ∧
    cannyCalls (processLoop w p (fuel + 1) s).2.trace = cannyCalls s.trace ∧
    writtenNames (processLoop w p (fuel + 1) s).2.trace = writtenNames s.trace ∧
    captureCount (epilogue w t fuel2 (processLoop w p (fuel + 1) s).2).state.trace =
      captureCount s.trace + 1 := by
  have hloop : processLoop w p (fuel + 1) s = (true, { s with
      clocks := s.clocks + 1, captures := s.captures + 1,
      trace := s.trace ++ [.capture (w.capture s.captures), .captureError] }) := by
    simp [processLoop, hlt, loopBody_empty w p s he]
  refine ⟨hloop, ?_, ?_, ?_, ?_, ?_⟩
  · rw [hloop]
  · rw [hloop]
  · rw [hloop]; simp [cannyCalls, Event.isCanny]
  · rw [hloop]; simp [writtenNames, Event.written?]
  · obtain ⟨ext, h1, h2, -, -, -⟩ := epilogue_spec w t fuel2 (processLoop w p (fuel + 1) s).2
    rw [h1, captureCount_append, idle_capture ext h2, hloop]
    simp [captureCount, Event.isCapture]

/-- Witness of C3: the source of `endedWorld` has nothing left when the
processing loop starts. -/
theorem empty_frame_ends_loop_witness :
    processLoop endedWorld sampleParams (4 + 1) endedStart = (true, { endedStart with
      clocks := endedStart.clocks + 1, captures := endedStart.captures + 1,
      trace := endedStart.trace ++
        [.capture (endedWorld.capture endedStart.captures), .captureError] }) ∧
    (processLoop endedWorld sampleParams (4 + 1) endedStart).2.frame_count =
      endedStart.frame_count ∧
    (processLoop endedWorld sampleParams (4 + 1) endedStart).2.frame_times =
      endedStart.frame_times ∧
    cannyCalls (processLoop endedWorld sampleParams (4 + 1) endedStart).2.trace =
      cannyCalls endedStart.trace ∧
    writtenNames (processLoop endedWorld sampleParams (4 + 1) endedStart).2.trace =
      writtenNames endedStart.trace ∧
    captureCount (epilogue endedWorld 0 3
        (processLoop endedWorld sampleParams (4 + 1) endedStart).2).state.trace =
      captureCount endedStart.trace + 1 :=
  empty_frame_ends_loop endedWorld sampleParams 0 4 3 endedStart (by decide) (by decide)



set_option maxRecDepth 100000 in
/-- For the frame counts the loop can reach, `sprintf` with `%03d` writes the
name the specification gives. -/
theorem sprintf_frameName : ∀ k < 150, sprintf_outfilename k = frameName (k + 1) := by
  decide

set_option maxRecDepth 100000 in
/-- The number in the name written for frame count `k` is `k + 1`. -/
theorem frameIndex_sprintf : ∀ k < 150, frameIndex (sprintf_outfilename k) = k + 1 := by
  decide

/-- The names written for the first `n` frames are those of the specification,
and no two of them are equal. -/
theorem names_spec (n : Nat) (hn : n ≤ MAX_FRAMES) :
    (List.range n).map sprintf_outfilename = (List.range' 1 n).map frameName ∧
    ((List.range n).map sprintf_outfilename).Nodup := by
  have hn150 : n ≤ 150 := hn
  constructor
  · rw [List.range'_eq_map_range, List.map_map]
    apply List.map_congr_left
    intro k hk
    rw [List.mem_range] at hk
    rw [sprintf_frameName k (by omega)]
    simp [Nat.add_comm]
  · refine List.Nodup.map_on ?_ (List.nodup_range n)
    intro a ha b hb hab
    rw [List.mem_range] at ha hb
    have h1 := frameIndex_sprintf a (by omega)
    have h2 := frameIndex_sprintf b (by omega)
    rw [hab] at h1
    omega

/-- The core facts hold of every state `main` reaches, whatever the command
line. -/
theorem main_counts {F : Type} (w : World F) (argv : List String) (fuel : Fuel) :
    (main w argv fuel).state.frame_times.length = (main w argv fuel).state.frame_count ∧
    writtenNames (main w argv fuel).state.trace =
      (List.range (main w argv fuel).state.frame_count).map sprintf_outfilename ∧
    (main w argv fuel).state.frame_count ≤ MAX_FRAMES ∧
    ∀ r ∈ reported (main w argv fuel).state.trace,
      r = ((main w argv fuel).state.frame_count, (main w argv fuel).state.frame_times) := by
  by_cases h : argv.length < 4
  · simp [main, h, State.emit, initState, writtenNames, Event.written?, reported,
      Event.reported?]
  · obtain ⟨⟨h1, h2, h3, -, -⟩, h4⟩ := main_post w argv fuel (by omega)
    exact ⟨h1, h2, h3, h4⟩

/-- A pass of the loop body whose write succeeds writes the file named by the
current frame count and counts the frame. -/
theorem loopBody_writes {F : Type} (w : World F) (p : Params F) (s : State F)
    (he : (w.capture s.captures).empty = false) (hw : w.write_pgm_image s.writes ≠ 0) :
    (loopBody w p s).1 = .next ∧
    (loopBody w p s).2.frame_count = s.frame_count + 1 ∧
    writtenNames (loopBody w p s).2.trace =
      writtenNames s.trace ++ [sprintf_outfilename s.frame_count] := by
  have hvw := passive_written _ (verboseLine_passive w s)
  rw [loopBody_ok w p s he hw]
  refine ⟨rfl, rfl, ?_⟩
  simp only [writtenNames_append, hvw]
  simp [writtenNames, Event.written?, hw]

/-- A pass of the loop body whose write fails writes no file and leaves the
frame count where it was. -/
theorem loopBody_skips {F : Type} (w : World F) (p : Params F) (s : State F)
    (he : (w.capture s.captures).empty = false) (hw : w.write_pgm_image s.writes = 0) :
    (loopBody w p s).1 = .cont ∧
    (loopBody w p s).2.frame_count = s.frame_count ∧
    writtenNames (loopBody w p s).2.trace = writtenNames s.trace := by
  have hvw := passive_written _ (verboseLine_passive w s)
  rw [loopBody_fail w p s he hw]
  refine ⟨rfl, rfl, ?_⟩
  simp only [writtenNames_append, hvw]
  simp [writtenNames, Event.written?]

/-- The names `sprintf` builds for the frame counts `a, ..., a + d - 1` are the
names the specification gives to the frames `a + 1, ..., a + d`. -/
theorem names_from (a d : Nat) (h : a + d ≤ MAX_FRAMES) :
    (List.range' a d).map sprintf_outfilename = (List.range' (a + 1) d).map frameName := by
  have h150 : a + d ≤ 150 := h
  rw [Nat.add_comm a 1, ← List.map_add_range' 1 a d 1, List.map_map]
  apply List.map_congr_left
  intro k hk
  rw [List.mem_range'_1] at hk
  rw [sprintf_frameName k (by omega)]
  simp [Nat.add_comm]

/-- While the source delivers frames and the file writer succeeds, the
processing loop ends once the frame count has reached `MAX_FRAMES`, having
written one file for each count in between. -/
theorem processLoop_steady {F : Type} (w : World F) (p : Params F)
    (hc : ∀ n, (w.capture n).empty = false) (hw : ∀ n, w.write_pgm_image n ≠ 0)
    (d : Nat) (s : State F) (hd : s.frame_count + d = MAX_FRAMES) (fuel : Nat)
    (hfuel : d < fuel) :
    (processLoop w p fuel s).1 = true ∧
    (processLoop w p fuel s).2.frame_count = MAX_FRAMES ∧
    writtenNames (processLoop w p fuel s).2.trace =
      writtenNames s.trace ++ (List.range' s.frame_count d).map sprintf_outfilename := by
  induction d generalizing s fuel with
  | zero =>
    obtain ⟨f, rfl⟩ : ∃ f, fuel = f + 1 := ⟨fuel - 1, by omega⟩
    have hge : ¬ s.frame_count < MAX_FRAMES := by omega
    rw [processLoop, if_neg hge]
    exact ⟨rfl, by simpa using hd, by simp⟩
  | succ d ih =>
    obtain ⟨f, rfl⟩ : ∃ f, fuel = f + 1 := ⟨fuel - 1, by omega⟩
    have hlt : s.frame_count < MAX_FRAMES := by omega
    obtain ⟨b1, b2, b3⟩ := loopBody_writes w p s (hc _) (hw _)
    obtain ⟨h1, h2, h3⟩ := ih (loopBody w p s).2 (by rw [b2]; omega) f (by omega)
    have hstep : processLoop w p (f + 1) s = processLoop w p f (loopBody w p s).2 := by
      rw [processLoop, if_pos hlt]
      split
      · rename_i s1 heq
        rw [heq] at b1
        cases b1
      · rename_i c s1 hne heq
        rw [heq]
    rw [hstep]
    refine ⟨h1, h2, ?_⟩
    rw [h3, b3, b2, List.append_assoc]
    rfl

/-- The preview loop ends at its first pass when the first key is ESC. -/
theorem previewLoop_esc {F : Type} (w : World F) (n : Nat) (s : State F)
    (hk : w.waitKey s.keys = 27) : (previewLoop w (n + 1) s).1 = true := by
  unfold previewLoop
  simp only
  split
  · rfl
  · simp [State.emit, hk]

/-- A complete run: the source opens and delivers a frame at every capture,
the user leaves the preview at the first key and the file writer succeeds.
Then the processing loop ends with 150 frames counted and the files
`frameName 1, ..., frameName 150` written, in this order. -/
theorem main_steady {F : Type} (w : World F) (argv : List String) (fuel : Fuel)
    (hargc : 4 ≤ argv.length) (hopen : w.isOpened = true)
    (hc : ∀ n, (w.capture n).empty = false) (hw : ∀ n, w.write_pgm_image n ≠ 0)
    (hk : w.waitKey 0 = 27) (hf1 : 0 < fuel.preview) (hf2 : MAX_FRAMES < fuel.process) :
    (main w argv fuel).state.frame_count = 150 ∧
    writtenNames (main w argv fuel).state.trace = (List.range' 1 150).map frameName := by
  obtain ⟨n, hn⟩ : ∃ n, fuel.preview = n + 1 := ⟨fuel.preview - 1, by omega⟩
  have e0 := previewLoop_esc w n (((initState F).emit (.openCapture pipeline)).emit
      (.info "[INFO] Press ESC to start Canny edge detection...")) hk
  obtain ⟨ext, e1, e2, -, e4, -⟩ := previewLoop_spec w (n + 1)
      (((initState F).emit (.openCapture pipeline)).emit
        (.info "[INFO] Press ESC to start Canny edge detection..."))
  unfold main
  rw [if_neg (by omega)]
  simp only [hopen, hn]
  split
  · rename_i hcontra
    simp at hcontra
  · split
    · rename_i s2 heq
      rw [heq] at e0
      simp at e0
    · rename_i s2 heq
      rw [heq] at e1 e4
      simp only at e1 e4
      have hfc : ({ s2 with clocks := s2.clocks + 1 } : State F).frame_count = 0 := e4
      have hnames : writtenNames ({ s2 with clocks := s2.clocks + 1 } : State F).trace = [] := by
        show writtenNames s2.trace = []
        rw [e1, writtenNames_append, passive_written ext e2]
        rfl
      obtain ⟨p1, p2, p3⟩ := processLoop_steady w (parseParams w argv) hc hw MAX_FRAMES
        { s2 with clocks := s2.clocks + 1 } (by rw [hfc]; simp) fuel.process hf2
      have hr : writtenNames ({ s2 with clocks := s2.clocks + 1 } : State F).trace ++
          (List.range' ({ s2 with clocks := s2.clocks + 1 } : State F).frame_count
            MAX_FRAMES).map sprintf_outfilename = (List.range' 1 150).map frameName := by
        rw [hnames, hfc, List.nil_append, names_from 0 MAX_FRAMES (by simp)]
        rfl
      have p4 := p3.trans hr
      split
      · rename_i s4 heq4
        rw [heq4] at p1
        simp at p1
      · rename_i s4 heq4
        rw [heq4] at p2 p4
        simp only at p2 p4
        obtain ⟨ext2, q1, q2, -, q4, -⟩ := epilogue_spec w
          (w.now s2.clocks) fuel.wait s4
        refine ⟨q4.trans p2, ?_⟩
        rw [q1, writtenNames_append, writtenNames_append,
          passive_written ext2 (fun e he => idle_passive e (q2 e he)), p4]
        simp [writtenNames, Event.written?]

/-- C8: the `k`-th successfully written edge map goes to the file
`frameName k`, which is "frame", `k` zero-padded to three digits, ".pgm".
In every run, the names of the successfully written edge maps are, in the
order written, `frameName 1, ..., frameName N`, where `N` is the frame count
reached; `N` is at most 150 and no name is written twice. At the head of an
iteration, with `frame_count` maps written so far: a non-empty frame whose
write succeeds is written to `frameName (frame_count + 1)` and counted, and
one whose write fails is neither written nor counted, so that the next frame
gets the same name. A run whose source keeps delivering frames and whose
writer succeeds writes `frameName 1, ..., frameName 150`. -/
theorem written_names {F : Type} (w : World F) (argv : List String) (fuel : Fuel) :
    (writtenNames (main w argv fuel).state.trace =
        (List.range' 1 (main w argv fuel).state.frame_count).map frameName ∧
      (main w argv fuel).state.frame_count ≤ 150 ∧
      (writtenNames (main w argv fuel).state.trace).Nodup) ∧
    (∀ (p : Params F) (s : State F), s.frame_count < MAX_FRAMES →
      (w.capture s.captures).empty = false → w.write_pgm_image s.writes ≠ 0 →
      (loopBody w p s).2.frame_count = s.frame_count + 1 ∧
      writtenNames (loopBody w p s).2.trace =
        writtenNames s.trace ++ [frameName (s.frame_count + 1)]) ∧
    (∀ (p : Params F) (s : State F),
      (w.capture s.captures).empty = false → w.write_pgm_image s.writes = 0 →
      (loopBody w p s).2.frame_count = s.frame_count ∧
      writtenNames (loopBody w p s).2.trace = writtenNames s.trace) ∧
    (4 ≤ argv.length → w.isOpened = true → (∀ n, (w.capture n).empty = false) →
      (∀ n, w.write_pgm_image n ≠ 0) → w.waitKey 0 = 27 → 0 < fuel.preview →
      MAX_FRAMES < fuel.process →
      (main w argv fuel).state.frame_count = 150 ∧
      writtenNames (main w argv fuel).state.trace = (List.range' 1 150).map frameName) := by
  refine ⟨?_, ?_, ?_, ?_⟩
  · obtain ⟨-, h2, h3, -⟩ := main_counts w argv fuel
    obtain ⟨h4, h5⟩ := names_spec _ h3
    exact ⟨h2.trans h4, h3, h2 ▸ h5⟩
  · intro p s hlt he hw
    obtain ⟨-, b2, b3⟩ := loopBody_writes w p s he hw
    have hlt150 : s.frame_count < 150 := hlt
    rw [← sprintf_frameName s.frame_count hlt150]
    exact ⟨b2, b3⟩
  · intro p s he hw
    exact (loopBody_skips w p s he hw).2
  · intro h1 h2 h3 h4 h5 h6 h7
    exact main_steady w argv fuel h1 h2 h3 h4 h5 h6 h7

/-- Witness of C8: the run of `mixedWorld`, whose second write fails, writes
frame001.pgm, frame002.pgm (at the second attempt) and frame003.pgm; the
first pass of the processing loop of `oneFrameWorld` writes frame001.pgm; the
run of `steadyWorld` writes 150 files. -/
theorem written_names_witness :
    (writtenNames (main mixedWorld ["camera_canny", "2", "1", "1"] fuel5).state.trace =
        ["frame001.pgm", "frame002.pgm", "frame003.pgm"] ∧
      (main mixedWorld ["camera_canny", "2", "1", "1"] fuel5).state.frame_count = 3 ∧
      writtenNames (main mixedWorld ["camera_canny", "2", "1", "1"] fuel5).state.trace =
        (List.range' 1 (main mixedWorld ["camera_canny", "2", "1", "1"]
          fuel5).state.frame_count).map frameName) ∧
    ((loopBody oneFrameWorld sampleParams endedStart).2.frame_count =
        endedStart.frame_count + 1 ∧
      writtenNames (loopBody oneFrameWorld sampleParams endedStart).2.trace =
        writtenNames endedStart.trace ++ [frameName (endedStart.frame_count + 1)]) ∧
    ((loopBody leakWorld sampleParams endedStart).2.frame_count = endedStart.frame_count ∧
      writtenNames (loopBody leakWorld sampleParams endedStart).2.trace =
        writtenNames endedStart.trace) ∧
    ((main steadyWorld ["camera_canny", "2", "1", "1"] fuelFull).state.frame_count = 150 ∧
      writtenNames (main steadyWorld ["camera_canny", "2", "1", "1"] fuelFull).state.trace =
        (List.range' 1 150).map frameName) :=
  ⟨⟨by decide, by decide,
    (written_names mixedWorld ["camera_canny", "2", "1", "1"] fuel5).1.1⟩,
   (written_names oneFrameWorld ["camera_canny", "2", "1", "1"] fuel5).2.1
     sampleParams endedStart (by decide) (by decide) (by decide),
   (written_names leakWorld ["camera_canny", "2", "1", "1"] fuel5).2.2.1
     sampleParams endedStart (by decide) (by decide),
   (written_names steadyWorld ["camera_canny", "2", "1", "1"] fuelFull).2.2.2
     (by decide) rfl (fun _ => rfl) (fun _ => (by decide : (1 : Int) ≠ 0)) rfl (by decide)
     (by decide)⟩

/-- C9: in every state `main` reaches (the head of an iteration of the
processing loop when the fuel runs out there, the end of the loop and what
follows otherwise) the number of recorded frame times equals `frame_count`, and
both equal the number of successfully written frame files; a statistics block
reports that number as the total of frames processed and averages as many
frame times. -/
theorem frame_count_invariant {F : Type} (w : World F) (argv : List String) (fuel : Fuel) :
    (main w argv fuel).state.frame_times.length = (main w argv fuel).state.frame_count ∧
    (main w argv fuel).state.frame_count =
      (writtenNames (main w argv fuel).state.trace).length ∧
    ∀ r ∈ reported (main w argv fuel).state.trace,
      r.1 = (writtenNames (main w argv fuel).state.trace).length ∧
      r.2 = (main w argv fuel).state.frame_times ∧ r.2.length = r.1 := by
  obtain ⟨h1, h2, -, h4⟩ := main_counts w argv fuel
  have h5 : (main w argv fuel).state.frame_count =
      (writtenNames (main w argv fuel).state.trace).length := by
    rw [h2]; simp
  refine ⟨h1, h5, ?_⟩
  intro r hr
  rw [h4 r hr]
  exact ⟨h5, rfl, h1⟩

/-- Witness of C9: the statistics block of the run of `oneFrameWorld`. -/
theorem frame_count_invariant_witness :
    (1, [10]) ∈ reported (main oneFrameWorld ["camera_canny", "2", "1", "1"] fuel5).state.trace ∧
    ((1, [10]) : Nat × List Int).1 =
      (writtenNames (main oneFrameWorld ["camera_canny", "2", "1", "1"] fuel5).state.trace).length ∧
    ((1, [10]) : Nat × List Int).2 =
      (main oneFrameWorld ["camera_canny", "2", "1", "1"] fuel5).state.frame_times ∧
    ((1, [10]) : Nat × List Int).2.length = ((1, [10]) : Nat × List Int).1 :=
  ⟨by decide,
   (frame_count_invariant oneFrameWorld ["camera_canny", "2", "1", "1"] fuel5).2.2 (1, [10])
     (by decide)⟩



/-- A `canny` call in a trace of `main` is made on a command line with at
least three parameters, with the declared dimensions and the parsed
parameters. -/
theorem main_canny {F : Type} (w : World F) (argv : List String) (fuel : Fuel)
    (image : List Nat) (rows cols : Nat) (sigma tlow thigh : F) (fname : Option String)
    (edge : Nat)
    (h : Event.canny image rows cols sigma tlow thigh fname edge ∈
      (main w argv fuel).state.trace) :
    4 ≤ argv.length ∧ rows = HEIGHT ∧ cols = WIDTH ∧
      sigma = (parseParams w argv).sigma ∧ tlow = (parseParams w argv).tlow ∧
      thigh = (parseParams w argv).thigh ∧ fname = (parseParams w argv).dirfilename := by
  by_cases hlen : argv.length < 4
  · simp [main, hlen, State.emit, initState] at h
  · exact ⟨by omega, (main_post w argv fuel (by omega)).1.events _ h⟩

/-- C1, counterexample: on `badArgv` the parsed `sigma` is `-1 <= 0`, `tlow` is
`2`, outside `(0, 1]`, and `thigh` is `1 < tlow`; still `canny` is invoked and
the frame file is written. -/
theorem invalid_params_not_rejected :
    4 ≤ badArgv.length ∧
    (parseParams oneFrameWorld badArgv).sigma ≤ 0 ∧
    ¬ ((parseParams oneFrameWorld badArgv).tlow ≤ 1) ∧
    (parseParams oneFrameWorld badArgv).thigh < (parseParams oneFrameWorld badArgv).tlow ∧
    cannyCalls (main oneFrameWorld badArgv fuel5).state.trace = 1 ∧
    writtenNames (main oneFrameWorld badArgv fuel5).state.trace = ["frame001.pgm"] := by
  decide

/-- C1, amended: on a command line with at least three parameters `main` makes
no check of the parsed `sigma`, `tlow` and `thigh`: whatever they are, it does
not take the usage exit, it goes on to open the video source, and every `canny`
invocation receives the three parsed values unchanged. -/
theorem params_unchecked {F : Type} (w : World F) (argv : List String) (fuel : Fuel)
    (h : 4 ≤ argv.length) :
    (main w argv fuel).status ≠ some 1 ∧
    (main w argv fuel).state.trace.head? = some (.openCapture pipeline) ∧
    ∀ image rows cols sigma tlow thigh fname edge,
      Event.canny image rows cols sigma tlow thigh fname edge ∈ (main w argv fuel).state.trace →
      sigma = w.atof (argv.getD 1 "") ∧ tlow = w.atof (argv.getD 2 "") ∧
        thigh = w.atof (argv.getD 3 "") := by
  refine ⟨main_status w argv fuel h, (main_post w argv fuel h).1.opened, ?_⟩
  intro image rows cols sigma tlow thigh fname edge he
  obtain ⟨-, -, -, h1, h2, h3, -⟩ := main_canny w argv fuel _ _ _ _ _ _ _ _ he
  exact ⟨h1, h2, h3⟩

/-- Witness of C1 (amended): the `canny` call of the run on `badArgv`. -/
theorem params_unchecked_witness :
    4 ≤ badArgv.length ∧
    Event.canny [10, 20, 30, 40] 480 640 (-1) 2 1 none 0 ∈
      (main oneFrameWorld badArgv fuel5).state.trace ∧
    ((-1 : ℚ) = oneFrameWorld.atof (badArgv.getD 1 "") ∧
      (2 : ℚ) = oneFrameWorld.atof (badArgv.getD 2 "") ∧
      (1 : ℚ) = oneFrameWorld.atof (badArgv.getD 3 "")) :=
  ⟨by decide, by decide,
   (params_unchecked oneFrameWorld badArgv fuel5 (by decide)).2.2
     [10, 20, 30, 40] 480 640 (-1) 2 1 none 0 (by decide)⟩

/-- C4, counterexample: the run of `oneFrameWorld`, in full. The frame captured
in the processing loop is 2 x 2, not 480 x 640; `canny` is invoked on its pixel
data with `rows = 480` and `cols = 640`, the result is written, and the only
error message of the run is the one for the empty frame that ends the loop. -/
theorem mismatched_frame_processed :
    tinyFrame.empty = false ∧ tinyFrame.rows ≠ HEIGHT ∧ tinyFrame.cols ≠ WIDTH ∧
    (main oneFrameWorld ["camera_canny", "2", "1", "1"] fuel5).state.trace =
      [.openCapture pipeline, .info "[INFO] Press ESC to start Canny edge detection...",
       .capture tinyFrame, .imshow "[RAW] Preview" tinyFrame, .waitKey 10 27,
       .capture tinyFrame, .canny tinyFrame.data 480 640 2 1 1 none 0,
       .write_pgm_image "frame001.pgm" 0 480 640 255 1,
       .imshowEdge "[EDGE] Processed Frame" 480 640 0, .waitKey 1 27, .progress 1 150,
       .free 0, .capture noFrame, .captureError, .statistics 1 40 7 [10],
       .info "To encode processed frames into video, run:",
       .info "ffmpeg -i frame%03d.pgm -pix_fmt yuvj420p frame_vid.h264",
       .info "[INFO] Press ESC to exit...", .waitKey 10 27, .release,
       .destroyAllWindows] := by
  decide

/-- C4, amended: for every non-empty frame captured in the processing loop,
whatever its dimensions, no check is made on them: right after the capture
(and the `VERBOSE` line, if any) `canny` is invoked on the pixel data of the
converted frame with the declared dimensions `HEIGHT` x `WIDTH`; and every
`canny` call of a run is made with these dimensions. -/
theorem dimensions_unchecked {F : Type} (w : World F) (p : Params F) (s : State F)
    (he : (w.capture s.captures).empty = false) :
    (∃ rest, (loopBody w p s).2.trace =
      s.trace ++ [.capture (w.capture s.captures)] ++ verboseLine w s ++
        [.canny (w.cvtColor (w.capture s.captures)).data HEIGHT WIDTH p.sigma p.tlow p.thigh
          p.dirfilename s.allocs] ++ rest) ∧
    ∀ argv fuel image rows cols sigma tlow thigh fname edge,
      Event.canny image rows cols sigma tlow thigh fname edge ∈ (main w argv fuel).state.trace →
      rows = HEIGHT ∧ cols = WIDTH := by
  constructor
  · by_cases hw : w.write_pgm_image s.writes = 0
    · rw [loopBody_fail w p s he hw]
      exact ⟨[.write_pgm_image (sprintf_outfilename s.frame_count) s.allocs HEIGHT WIDTH 255 0,
        .writeError (s.frame_count + 1)], by simp⟩
    · rw [loopBody_ok w p s he hw]
      exact ⟨[.write_pgm_image (sprintf_outfilename s.frame_count) s.allocs HEIGHT WIDTH 255
          (w.write_pgm_image s.writes),
        .imshowEdge "[EDGE] Processed Frame" HEIGHT WIDTH s.allocs,
        .waitKey 1 (w.waitKey s.keys), .progress (s.frame_count + 1) MAX_FRAMES,
        .free s.allocs], by simp⟩
  · intro argv fuel image rows cols sigma tlow thigh fname edge h
    obtain ⟨-, h1, h2, -⟩ := main_canny w argv fuel _ _ _ _ _ _ _ _ h
    exact ⟨h1, h2⟩

/-- Witness of C4 (amended): the first pass of the processing loop of
`oneFrameWorld`, whose frame is 2 x 2, and the `canny` call of its run. -/
theorem dimensions_unchecked_witness :
    (oneFrameWorld.capture endedStart.captures).empty = false ∧
    (∃ rest, (loopBody oneFrameWorld sampleParams endedStart).2.trace =
      endedStart.trace ++ [.capture (oneFrameWorld.capture endedStart.captures)] ++
        verboseLine oneFrameWorld endedStart ++
        [.canny (oneFrameWorld.cvtColor (oneFrameWorld.capture endedStart.captures)).data
          HEIGHT WIDTH sampleParams.sigma sampleParams.tlow sampleParams.thigh
          sampleParams.dirfilename endedStart.allocs] ++ rest) ∧
    Event.canny [10, 20, 30, 40] 480 640 2 1 1 none 0 ∈
      (main oneFrameWorld ["camera_canny", "2", "1", "1"] fuel5).state.trace ∧
    480 = HEIGHT ∧ 640 = WIDTH :=
  ⟨by decide,
   (dimensions_unchecked oneFrameWorld sampleParams endedStart (by decide)).1,
   by decide,
   (dimensions_unchecked oneFrameWorld sampleParams endedStart (by decide)).2
     ["camera_canny", "2", "1", "1"] fuel5 [10, 20, 30, 40] 480 640 2 1 1 none 0 (by decide)⟩

/-- C7, counterexample: `longArgv` carries the fourth parameter `writedirim`
(followed by a fifth), and the `canny` call of the run is passed a null
direction file name. -/
theorem fourth_parameter_ignored :
    longArgv.get? 4 = some "writedirim" ∧
    Event.canny [10, 20, 30, 40] 480 640 2 1 1 none 0 ∈
      (main oneFrameWorld longArgv fuel5).state.trace := by
  decide

/-- C7, amended: every `canny` invocation of a run is passed a direction file
name (`"dummy"`) if and only if the command line has exactly four parameters
(`argc == 5`). -/
theorem direction_iff_argc_five {F : Type} (w : World F) (argv : List String) (fuel : Fuel)
    (image : List Nat) (rows cols : Nat) (sigma tlow thigh : F) (fname : Option String)
    (edge : Nat)
    (h : Event.canny image rows cols sigma tlow thigh fname edge ∈
      (main w argv fuel).state.trace) :
    (fname ≠ none ↔ argv.length = 5) ∧ (fname = some "dummy" ↔ argv.length = 5) := by
  obtain ⟨-, -, -, -, -, -, h1⟩ := main_canny w argv fuel _ _ _ _ _ _ _ _ h
  subst h1
  by_cases h5 : argv.length = 5 <;> simp [parseParams, h5]

/-- Witness of C7 (amended): a run with exactly four parameters. -/
theorem direction_iff_argc_five_witness :
    Event.canny [10, 20, 30, 40] 480 640 2 1 1 (some "dummy") 0 ∈
      (main oneFrameWorld ["camera_canny", "2", "1", "1", "writedirim"] fuel5).state.trace ∧
    (((some "dummy" : Option String) ≠ none ↔
        (["camera_canny", "2", "1", "1", "writedirim"] : List String).length = 5) ∧
      ((some "dummy" : Option String) = some "dummy" ↔
        (["camera_canny", "2", "1", "1", "writedirim"] : List String).length = 5)) :=
  ⟨by decide,
   direction_iff_argc_five oneFrameWorld ["camera_canny", "2", "1", "1", "writedirim"] fuel5
     [10, 20, 30, 40] 480 640 2 1 1 (some "dummy") 0 (by decide)⟩



/-- While the source delivers frames and the file writer fails, the processing
loop does not end: each round invokes `canny`, leaves one more edge buffer
unreleased and leaves the frame count where it was. -/
theorem processLoop_stuck {F : Type} (w : World F) (p : Params F)
    (hc : ∀ n, (w.capture n).empty = false) (hw : ∀ n, w.write_pgm_image n = 0)
    (fuel : Nat) (s : State F) (hlt : s.frame_count < MAX_FRAMES) :
    (processLoop w p fuel s).1 = false ∧
    (processLoop w p fuel s).2.frame_count = s.frame_count ∧
    cannyCalls (processLoop w p fuel s).2.trace = cannyCalls s.trace + fuel ∧
    (processLoop w p fuel s).2.live.length = s.live.length + fuel := by
  induction fuel generalizing s with
  | zero => simp [processLoop]
  | succ n ih =>
    have hv := passive_canny _ (verboseLine_passive w s)
    unfold processLoop
    rw [if_pos hlt, loopBody_fail w p s (hc _) (hw _)]
    simp only
    obtain ⟨h1, h2, h3, h4⟩ := ih { s with
      clocks := s.clocks + 1, captures := s.captures + 1, allocs := s.allocs + 1,
      writes := s.writes + 1, edge := some s.allocs, live := s.allocs :: s.live,
      trace := s.trace ++ [.capture (w.capture s.captures)] ++ verboseLine w s ++
        [.canny (w.cvtColor (w.capture s.captures)).data HEIGHT WIDTH p.sigma p.tlow p.thigh
            p.dirfilename s.allocs,
          .write_pgm_image (sprintf_outfilename s.frame_count) s.allocs HEIGHT WIDTH 255 0,
          .writeError (s.frame_count + 1)] } hlt
    refine ⟨h1, h2, ?_, ?_⟩
    · rw [h3]
      simp only [cannyCalls_append, hv]
      simp [cannyCalls, Event.isCanny]
      omega
    · rw [h4]
      simp
      omega

/-- C2, the code at the failing input: in `stuckWorld` the source always
delivers a frame and the file writer always fails. Whatever the number `m` of
rounds granted to the processing loop, the loop has not ended after them, it
has invoked `canny` `m` times (more than 150 once `m > 150`), and the frame
count is still 0. -/
theorem failing_writer_never_ends (n m k : Nat) :
    (main stuckWorld ["camera_canny", "2", "1", "1"] ⟨n + 1, m, k⟩).status = none ∧
    cannyCalls (main stuckWorld ["camera_canny", "2", "1", "1"] ⟨n + 1, m, k⟩).state.trace = m ∧
    (main stuckWorld ["camera_canny", "2", "1", "1"] ⟨n + 1, m, k⟩).state.frame_count = 0 := by
  have hc : ∀ i, (stuckWorld.capture i).empty = false := fun _ => rfl
  have hw : ∀ i, stuckWorld.write_pgm_image i = 0 := fun _ => rfl
  have hpre : previewLoop stuckWorld (n + 1) (((initState ℚ).emit (.openCapture pipeline)).emit
      (.info "[INFO] Press ESC to start Canny edge detection...")) =
      (true, { initState ℚ with
        captures := 1, keys := 1
        trace := [.openCapture pipeline,
          .info "[INFO] Press ESC to start Canny edge detection...",
          .capture tinyFrame, .imshow "[RAW] Preview" tinyFrame, .waitKey 10 27] }) := rfl
  obtain ⟨h1, h2, h3, -⟩ := processLoop_stuck stuckWorld
    (parseParams stuckWorld ["camera_canny", "2", "1", "1"]) hc hw m
    { initState ℚ with
      captures := 1, keys := 1, clocks := 1
      trace := [.openCapture pipeline,
        .info "[INFO] Press ESC to start Canny edge detection...",
        .capture tinyFrame, .imshow "[RAW] Preview" tinyFrame, .waitKey 10 27] } (by decide)
  have hmain : main stuckWorld ["camera_canny", "2", "1", "1"] ⟨n + 1, m, k⟩ =
      { status := none
        state := (processLoop stuckWorld (parseParams stuckWorld ["camera_canny", "2", "1", "1"])
          m { initState ℚ with
            captures := 1, keys := 1, clocks := 1
            trace := [.openCapture pipeline,
              .info "[INFO] Press ESC to start Canny edge detection...",
              .capture tinyFrame, .imshow "[RAW] Preview" tinyFrame, .waitKey 10 27] }).2 } := by
    unfold main
    rw [if_neg (by decide)]
    simp only
    rw [if_neg (by decide), hpre]
    simp only
    split
    · rename_i s4 heq
      simp only [initState] at heq ⊢
      rw [heq]
    · rename_i s4 heq
      simp only [initState] at heq h1
      rw [heq] at h1
      simp at h1
  rw [hmain]
  refine ⟨rfl, ?_, ?_⟩
  · rw [h3]
    simp [cannyCalls, Event.isCanny]
  · rw [h2]
    rfl

/-- C5, the code at the failing input: in `leakWorld` two frames reach the
processing loop and both writes fail. The run ends normally, `canny` has
returned the buffers 0 and 1, `free` was never called, and both buffers are
still unreleased at the end. -/
theorem failed_write_leaks_buffer :
    (main leakWorld ["camera_canny", "2", "1", "1"] fuel5).status = some 0 ∧
    allocated (main leakWorld ["camera_canny", "2", "1", "1"] fuel5).state.trace = [0, 1] ∧
    freed (main leakWorld ["camera_canny", "2", "1", "1"] fuel5).state.trace = [] ∧
    (main leakWorld ["camera_canny", "2", "1", "1"] fuel5).state.live = [1, 0] := by
  decide

/-- C10, the code at the failing input: in `endedWorld` the first capture of
the processing loop is empty. The run reaches the statistics block and ends
normally, and the block is computed with `frame_count = 0` as the divisor of
the average of an empty list of frame times. -/
theorem statistics_divide_by_zero :
    (main endedWorld ["camera_canny", "2", "1", "1"] fuel5).status = some 0 ∧
    reported (main endedWorld ["camera_canny", "2", "1", "1"] fuel5).state.trace = [(0, [])] := by
  decide



end CameraCanny
